import Mathlib

/-!
Shallow embedding of the graph-construction and factor-generation core of
`pathwaytab.cpp` (`PathwayTab` and `RepressorDominatesVoteFactorGenerator`).

Modelling conventions:
* the C++ `Real` type is modelled by `ℚ`;
* `std::map` containers are modelled by association lists with the same
  lookup / insert-or-overwrite semantics; only facts that are insensitive to
  map iteration order are proved about traversals;
* `dai::MultiFor` over dimensions `[3, …, 3]` enumerates joint assignments in
  linear order with the first index changing fastest, so digit `k` of
  assignment `a` is `a / 3 ^ k % 3`;
* C++ exceptions are modelled by an `Option String` error component carried
  alongside the (possibly partially mutated) state.
-/

namespace PW

/-- Embeds `PathwayTab::VARIABLE_DIMENSION` (every node variable has 3 states). -/
def VARIABLE_DIMENSION : Nat := 3

/-- Embeds `PathwayTab::OBSERVATION_INTERACTION`. -/
def OBSERVATION_INTERACTION : String := "-obs>"

/-- Embeds `countVotesRepressorDominates` from `pathwaytab.cpp`:
`if (up > 0 & up > down) return 2; else if (down > 0 & down >= up) return 0; else return 1;`
(`&` on the two boolean comparands coincides with logical and). -/
def countVotesRepressorDominates (down up : Nat) : Nat :=
  if 0 < up ∧ down < up then 2
  else if 0 < down ∧ up ≤ down then 0
  else 1

/-- Digit `k` of joint parent assignment `a` under `dai::MultiFor` with all
dimensions equal to 3 (first index fastest). -/
def assignmentDigit (a k : Nat) : Nat := a / 3 ^ k % 3

/-- Embeds the vote cast by parent `k`: a `"negative"` edge votes for state
`votes.size() - 1 - s[i]`, i.e. `2 - d`; any other label votes for `d`. -/
def voteTarget (edge_type : String) (d : Nat) : Nat :=
  if edge_type = "negative" then 2 - d else d

/-- Number of votes for `state` tallied over all parents at assignment `a`
(the `votes` vector of `generateValues`). -/
def voteCount (edge_types : List String) (a state : Nat) : Nat :=
  (List.range edge_types.length).countP
    (fun k => voteTarget (edge_types.getD k "") (assignmentDigit a k) == state)

/-- Embeds `expected_state = countVotesRepressorDominates(votes[0], votes[2])`. -/
def expectedState (edge_types : List String) (a : Nat) : Nat :=
  countVotesRepressorDominates (voteCount edge_types a 0) (voteCount edge_types a 2)

/-- The three probability values emitted for one joint parent assignment:
`major = 1 - ε` at the expected state, `minor = ε / 2` elsewhere. -/
def assignmentBlock (edge_types : List String) (eps : ℚ) (a : Nat) : List ℚ :=
  (List.range 3).map (fun i => if i = expectedState edge_types a then 1 - eps else eps / 2)

/-- Embeds `RepressorDominatesVoteFactorGenerator::generateValues`: for each of
the `3 ^ N` joint parent assignments, in `MultiFor` order, append the
three-value block for that assignment. -/
def generateValues (edge_types : List String) (eps : ℚ) : List ℚ :=
  (List.range (3 ^ edge_types.length)).flatMap (assignmentBlock edge_types eps)

/-- The values emitted for assignment `a`: entries `3a`, `3a+1`, `3a+2` of the table. -/
def tableBlock (v : List ℚ) (a : Nat) : List ℚ := (v.drop (3 * a)).take 3

theorem countVotesRepressorDominates_lt_three (down up : Nat) :
    countVotesRepressorDominates down up < 3 := by
  unfold countVotesRepressorDominates
  split
  · omega
  · split <;> omega

theorem assignmentBlock_length (edge_types : List String) (eps : ℚ) (a : Nat) :
    (assignmentBlock edge_types eps a).length = 3 := by
  simp [assignmentBlock]

theorem bind_blocks_length {α β : Type} (f : α → List β) (l : List α)
    (hf : ∀ x ∈ l, (f x).length = 3) : (l.flatMap f).length = 3 * l.length := by
  induction l with
  | nil => simp
  | cons x t ih =>
    simp only [List.flatMap_cons, List.length_append, List.length_cons]
    rw [hf x (List.mem_cons_self x t), ih (fun y hy => hf y (List.mem_cons_of_mem x hy))]
    ring

theorem bind_blocks_extract {α β : Type} (f : α → List β) (l : List α)
    (hf : ∀ x, (f x).length = 3) :
    ∀ (a : Nat) (ha : a < l.length),
      ((l.flatMap f).drop (3 * a)).take 3 = f (l.get ⟨a, ha⟩) := by
  induction l with
  | nil => intro a ha; exact absurd ha (Nat.not_lt_zero a)
  | cons x t ih =>
    intro a ha
    cases a with
    | zero =>
      simp only [List.flatMap_cons, Nat.mul_zero, List.drop_zero, List.get]
      rw [← hf x]
      exact List.take_left _ _
    | succ a =>
      have h3 : 3 * (a + 1) = (f x).length + 3 * a := by rw [hf x]; ring
      simp only [List.flatMap_cons, List.get]
      rw [h3, List.drop_append]
      exact ih a (Nat.lt_of_succ_lt_succ ha)

theorem generateValues_length (edge_types : List String) (eps : ℚ) :
    (generateValues edge_types eps).length = 3 * 3 ^ edge_types.length := by
  unfold generateValues
  rw [bind_blocks_length _ _ (fun x _ => assignmentBlock_length edge_types eps x)]
  simp

theorem generateValues_block (edge_types : List String) (eps : ℚ)
    (a : Nat) (ha : a < 3 ^ edge_types.length) :
    tableBlock (generateValues edge_types eps) a = assignmentBlock edge_types eps a := by
  unfold tableBlock generateValues
  have h := bind_blocks_extract (assignmentBlock edge_types eps) (List.range (3 ^ edge_types.length))
    (assignmentBlock_length edge_types eps) a (by simpa using ha)
  rw [h]
  congr 1
  simp [List.get_eq_getElem]

theorem assignmentBlock_expected (edge_types : List String) (eps : ℚ) (a e : Nat)
    (he : expectedState edge_types a = e) :
    assignmentBlock edge_types eps a =
      [if 0 = e then 1 - eps else eps / 2,
       if 1 = e then 1 - eps else eps / 2,
       if 2 = e then 1 - eps else eps / 2] := by
  unfold assignmentBlock
  rw [he]
  rfl

/-- C1, counterexample. The claim states that a vote tally with
`tally[0] = tally[2] > 0` yields expected child state 1 (mid) via the
catch-all branch. In the code the second branch (`down > 0 && down >= up`)
fires on such a tie and returns 0. Concretely: with two positive parents at
joint assignment 6 (digits `(0, 2)`), the tally is one down-vote and one
up-vote, and the expected state is 0, not 1. -/
theorem claim_C1_counterexample :
    voteCount ["positive", "positive"] 6 0 = 1
    ∧ voteCount ["positive", "positive"] 6 2 = 1
    ∧ expectedState ["positive", "positive"] 6 = 0
    ∧ countVotesRepressorDominates 1 1 ≠ 1 := by
  refine ⟨by decide, by decide, by decide, by decide⟩

/-- C1, amended: in the default vote-based factor generator, for every joint
parent assignment whose vote tally has `tally[0] = tally[2] > 0`, the expected
child state is 0 (down), produced by the repressor branch
(`down > 0 && down >= up`) of the vote rule, and the emitted block for that
assignment puts the major value on state 0. -/
theorem claim_C1 (edge_types : List String) (eps : ℚ) (a : Nat)
    (ha : a < 3 ^ edge_types.length)
    (htie : voteCount edge_types a 0 = voteCount edge_types a 2)
    (hpos : 0 < voteCount edge_types a 0) :
    expectedState edge_types a = 0
    ∧ tableBlock (generateValues edge_types eps) a = [1 - eps, eps / 2, eps / 2] := by
  have he : expectedState edge_types a = 0 := by
    unfold expectedState countVotesRepressorDominates
    rw [← htie]
    split
    · omega
    · split
      · rfl
      · omega
  refine ⟨he, ?_⟩
  rw [generateValues_block edge_types eps a ha]
  unfold assignmentBlock
  rw [he]
  rfl

/-- C1 witness: instantiates the amended theorem at two positive parents,
assignment 6, `ε = 0.1`. -/
theorem claim_C1_witness :
    6 < 3 ^ (["positive", "positive"] : List String).length
    ∧ voteCount ["positive", "positive"] 6 0 = voteCount ["positive", "positive"] 6 2
    ∧ 0 < voteCount ["positive", "positive"] 6 0
    ∧ (expectedState ["positive", "positive"] 6 = 0
       ∧ tableBlock (generateValues ["positive", "positive"] (1/10)) 6
           = [1 - 1/10, (1/10) / 2, (1/10) / 2]) :=
  ⟨by decide, by decide, by decide,
    claim_C1 ["positive", "positive"] (1/10) 6 (by decide) (by decide) (by decide)⟩

/-- C2: with `ε = 0.1`, the default generator emits `[0.05, 0.9, 0.05]` on the
empty edge-label list; on `["positive"]` it emits a length-9 table whose rows
for parent state 0, 1, 2 are `[0.9, 0.05, 0.05]`, `[0.05, 0.9, 0.05]`,
`[0.05, 0.05, 0.9]`; and on `["negative"]` the row for parent state 2 is
`[0.9, 0.05, 0.05]`. -/
theorem claim_C2 :
    generateValues [] (0.1 : ℚ) = [0.05, 0.9, 0.05]
    ∧ generateValues ["positive"] (0.1 : ℚ)
        = [0.9, 0.05, 0.05, 0.05, 0.9, 0.05, 0.05, 0.05, 0.9]
    ∧ (generateValues ["positive"] (0.1 : ℚ)).length = 9
    ∧ tableBlock (generateValues ["negative"] (0.1 : ℚ)) 2 = [0.9, 0.05, 0.05] := by
  have h0 : expectedState [] 0 = 1 := by decide
  have p0 : expectedState ["positive"] 0 = 0 := by decide
  have p1 : expectedState ["positive"] 1 = 1 := by decide
  have p2 : expectedState ["positive"] 2 = 2 := by decide
  have n2 : expectedState ["negative"] 2 = 0 := by decide
  refine ⟨?_, ?_, ?_, ?_⟩
  · have hgv : generateValues [] (0.1 : ℚ) = assignmentBlock [] 0.1 0 ++ [] := rfl
    rw [hgv, assignmentBlock_expected [] 0.1 0 1 h0]
    norm_num
  · have hgv : generateValues ["positive"] (0.1 : ℚ)
        = assignmentBlock ["positive"] 0.1 0
          ++ (assignmentBlock ["positive"] 0.1 1
            ++ (assignmentBlock ["positive"] 0.1 2 ++ [])) := rfl
    rw [hgv, assignmentBlock_expected ["positive"] 0.1 0 0 p0,
      assignmentBlock_expected ["positive"] 0.1 1 1 p1,
      assignmentBlock_expected ["positive"] 0.1 2 2 p2]
    norm_num
  · rw [generateValues_length]
    norm_num
  · rw [generateValues_block ["negative"] 0.1 2 (by norm_num),
      assignmentBlock_expected ["negative"] 0.1 2 0 n2]
    norm_num

/-- C3: for every edge-label list and every `0 < ε < 1`, the emitted table has
length exactly `3 · 3 ^ N`, equal to the product of the factor's `N + 1`
variable cardinalities (all 3); each consecutive block of 3 values carries the
major value `1 − ε` in exactly one slot and the minor value `ε / 2` in the
other two; and every table entry is strictly positive. -/
theorem claim_C3 (edge_types : List String) (eps : ℚ) (h0 : 0 < eps) (h1 : eps < 1) :
    (generateValues edge_types eps).length = 3 * 3 ^ edge_types.length
    ∧ (List.replicate (edge_types.length + 1) 3).prod = (generateValues edge_types eps).length
    ∧ (∀ a < 3 ^ edge_types.length, ∃ j < 3,
        tableBlock (generateValues edge_types eps) a
          = (List.range 3).map (fun i => if i = j then 1 - eps else eps / 2))
    ∧ (∀ x ∈ generateValues edge_types eps, 0 < x) := by
  refine ⟨generateValues_length edge_types eps, ?_, ?_, ?_⟩
  · rw [List.prod_replicate, generateValues_length, pow_succ]
    ring
  · intro a ha
    exact ⟨expectedState edge_types a,
      countVotesRepressorDominates_lt_three _ _,
      generateValues_block edge_types eps a ha⟩
  · intro x hx
    unfold generateValues at hx
    rcases List.mem_flatMap.mp hx with ⟨a, _, hxa⟩
    unfold assignmentBlock at hxa
    rcases List.mem_map.mp hxa with ⟨i, _, hix⟩
    by_cases hie : i = expectedState edge_types a
    · rw [if_pos hie] at hix
      rw [← hix]
      linarith
    · rw [if_neg hie] at hix
      rw [← hix]
      linarith

/-- C3 witness: instantiates the theorem at the edge labels
`["negative", "positive"]` and `ε = 0.1`. -/
theorem claim_C3_witness :
    (0 : ℚ) < 0.1 ∧ (0.1 : ℚ) < 1
    ∧ ((generateValues ["negative", "positive"] (0.1 : ℚ)).length
          = 3 * 3 ^ (["negative", "positive"] : List String).length
       ∧ (List.replicate ((["negative", "positive"] : List String).length + 1) 3).prod
          = (generateValues ["negative", "positive"] (0.1 : ℚ)).length
       ∧ (∀ a < 3 ^ (["negative", "positive"] : List String).length, ∃ j < 3,
            tableBlock (generateValues ["negative", "positive"] (0.1 : ℚ)) a
              = (List.range 3).map (fun i => if i = j then 1 - (0.1 : ℚ) else (0.1 : ℚ) / 2))
       ∧ (∀ x ∈ generateValues ["negative", "positive"] (0.1 : ℚ), 0 < x)) :=
  ⟨by norm_num, by norm_num, claim_C3 ["negative", "positive"] 0.1 (by norm_num) (by norm_num)⟩

/-- Embeds the `Node` typedef of `PathwayTab`: a pair (entity, species). -/
abbrev Node := String × String

/-- Lookup in an association list, the read side of `std::map`. -/
def lookupA {α β : Type} [DecidableEq α] : List (α × β) → α → Option β
  | [], _ => none
  | (k', v) :: t, k => if k' = k then some v else lookupA t k

/-- Insert-or-overwrite in an association list, the write side of
`std::map::operator[] = v` (a fresh key is appended; an existing key's value is
replaced in place). -/
def setA {α β : Type} [DecidableEq α] : List (α × β) → α → β → List (α × β)
  | [], k, v => [(k, v)]
  | (k', v') :: t, k, v => if k' = k then (k, v) :: t else (k', v') :: setA t k v

/-- Embeds the parsed form of `PathwayTab::DEFAULT_INTERACTION_MAP`: each line
`symbol from-species to-species polarity` becomes one entry
`symbol ↦ (from-species, to-species, polarity)`. -/
def DEFAULT_INTERACTION_MAP : List (String × (String × String × String)) :=
  [("-dt>", ("genome", "mRNA", "positive")),
   ("-dr>", ("mRNA", "protein", "positive")),
   ("-dp>", ("protein", "active", "positive")),
   ("-t>", ("active", "mRNA", "positive")),
   ("-t|", ("active", "mRNA", "negative")),
   ("-a>", ("active", "active", "positive")),
   ("-a|", ("active", "active", "negative")),
   ("-ap>", ("active", "active", "positive")),
   ("-ap|", ("active", "active", "negative")),
   ("->", ("active", "active", "positive")),
   ("-|", ("active", "active", "negative")),
   ("<->", ("active", "active", "positive")),
   ("component>", ("active", "active", "positive"))]

/-- States of the parsed form of `PathwayTab::CENTRAL_DOGMA`, as held in the
`std::set< string > _states` of `GeneProteinExpressionModel` (iterated in
sorted order). -/
def CENTRAL_DOGMA_STATES : List String := ["active", "genome", "mRNA", "protein"]

/-- Steps of the parsed form of `PathwayTab::CENTRAL_DOGMA`, as held in the
`std::set< string > _steps` of `GeneProteinExpressionModel` (iterated in
sorted order). -/
def CENTRAL_DOGMA_STEPS : List String := ["-dp>", "-dr>", "-dt>"]

/-- Embeds the mutable state of a `PathwayTab` object together with the
immutable interaction map and central-dogma model it holds:
`_nodemap`, `_nodevector`, `_parents` (child ↦ (parent ↦ edge label)),
`_entities` (entity ↦ type), `_imap`, and the dogma's `_states` / `_steps`. -/
structure PTab where
  nodemap : List (Node × Nat)
  nodevector : List Node
  parents : List (Node × List (Node × String))
  entities : List (String × String)
  imap : List (String × (String × String × String))
  dogmaStates : List String
  dogmaSteps : List String
deriving DecidableEq

/-- Embeds `PathwayTab::addNode`: a fresh node receives id `_nodemap.size()`
(the size before insertion), is appended to `_nodevector`, and gets an empty
parent map; an already-present node leaves the state unchanged. -/
def addNode (s : PTab) (n : Node) : PTab :=
  if (lookupA s.nodemap n).isSome then s
  else { s with
    nodemap := s.nodemap ++ [(n, s.nodemap.length)]
    nodevector := s.nodevector ++ [n]
    parents := setA s.parents n [] }

/-- Embeds `PathwayTab::addEdge`: `_parents[to][from] = lbl`, with
`operator[]` default-constructing a missing parent map. -/
def addEdge (s : PTab) (node_from node_to : Node) (lbl : String) : PTab :=
  let pm := setA ((lookupA s.parents node_to).getD []) node_from lbl
  { s with parents := setA s.parents node_to pm }

/-- Embeds `PathwayTab::getAppropriateEntityNode`: a protein entity resolves to
the requested species, any other entity to its single "active" node. Reading
`_entities[entity]` default-inserts an empty type string for an unknown
entity, which is part of the returned state. -/
def getAppropriateEntityNode (s : PTab) (entity species : String) : PTab × Node :=
  match lookupA s.entities entity with
  | some ty => (s, (entity, if ty = "protein" then species else "active"))
  | none => ({ s with entities := setA s.entities entity "" }, (entity, "active"))

/-- The `_entities[entity] = type` write at the head of `PathwayTab::addEntity`. -/
def registerEntity (s : PTab) (entity ty : String) : PTab :=
  { s with entities := setA s.entities entity ty }

/-- The node-creating loop of `GeneProteinExpressionModel::addGeneDogma`: one
node `(entity, state)` per dogma state, in the set's iteration order. -/
def addDogmaNodes (s : PTab) (entity : String) : PTab :=
  s.dogmaStates.foldl (fun t st => addNode t (entity, st)) s

/-- The tail of `PathwayTab::addInteraction` after the map lookup and entity
registration: resolve both endpoint nodes via `getAppropriateEntityNode`,
return silently when they coincide (self-loop suppression), otherwise add both
nodes and the polarity-labeled edge. -/
def addResolvedInteraction (s : PTab) (entity_from entity_to : String)
    (i : String × String × String) : PTab × Option String :=
  let p1 := getAppropriateEntityNode s entity_from i.1
  let p2 := getAppropriateEntityNode p1.1 entity_to i.2.1
  if p1.2 = p2.2 then (p2.1, none)
  else (addEdge (addNode (addNode p2.1 p1.2) p2.2) p1.2 p2.2 i.2.2, none)

/-- Call shapes of the mutually recursive trio `PathwayTab::addEntity`,
`GeneProteinExpressionModel::addGeneDogma`'s step loop, and
`PathwayTab::addInteraction`. -/
inductive GraphCall where
  | entity (entity ty : String)
  | steps (entity : String) (rest : List String)
  | inter (entity_from entity_to interaction : String)

/-- Fueled interpreter for the mutually recursive calls
`addEntity` ↔ (`addGeneDogma` step loop) ↔ `addInteraction` of
`pathwaytab.cpp`. In the source the recursion terminates because an entity is
recorded in `_entities` before its dogma expansion runs, so the nested
`addEntity` calls hit the registered-entity fast path; the fuel argument makes
this a total Lean function, and the public entry points below supply enough
fuel that the fuel-exhausted branch is unreachable. A `some` error component
models a thrown C++ exception, alongside the state mutated so far. -/
def execCall : Nat → PTab → GraphCall → PTab × Option String
  | fuel, s, .entity entity ty =>
    if (lookupA s.entities entity).isSome then (s, none)
    else if ty = "protein" then
      match fuel with
      | 0 => (addDogmaNodes (registerEntity s entity ty) entity, some "fuel exhausted")
      | fuel + 1 =>
        execCall fuel (addDogmaNodes (registerEntity s entity ty) entity)
          (.steps entity (addDogmaNodes (registerEntity s entity ty) entity).dogmaSteps)
    else (addNode (registerEntity s entity ty) (entity, "active"), none)
  | fuel, s, .steps entity sts =>
    match sts with
    | [] => (s, none)
    | st :: rest =>
      match fuel with
      | 0 => (s, some "fuel exhausted")
      | fuel + 1 =>
        match execCall fuel s (.inter entity entity st) with
        | (s1, none) => execCall fuel s1 (.steps entity rest)
        | r => r
  | fuel, s, .inter entity_from entity_to interaction =>
    match lookupA s.imap interaction with
    | none => (s, some "Unrecognized interaction type")
    | some i =>
      match fuel with
      | 0 => (s, some "fuel exhausted")
      | fuel + 1 =>
        match execCall fuel s (.entity entity_from "protein") with
        | (s1, none) =>
          match execCall fuel s1 (.entity entity_to "protein") with
          | (s2, none) => addResolvedInteraction s2 entity_from entity_to i
          | r => r
        | r => r

theorem execCall_entity_eq (fuel : Nat) (s : PTab) (entity ty : String) :
    execCall fuel s (.entity entity ty)
      = if (lookupA s.entities entity).isSome then (s, none)
        else if ty = "protein" then
          match fuel with
          | 0 => (addDogmaNodes (registerEntity s entity ty) entity, some "fuel exhausted")
          | fuel + 1 =>
            execCall fuel (addDogmaNodes (registerEntity s entity ty) entity)
              (.steps entity (addDogmaNodes (registerEntity s entity ty) entity).dogmaSteps)
        else (addNode (registerEntity s entity ty) (entity, "active"), none) := by
  cases fuel with
  | zero => rfl
  | succ n => rfl

theorem execCall_entity_reg (fuel : Nat) (s : PTab) (entity ty : String)
    (h : (lookupA s.entities entity).isSome) :
    execCall fuel s (.entity entity ty) = (s, none) := by
  rw [execCall_entity_eq, if_pos h]

theorem execCall_entity_other (fuel : Nat) (s : PTab) (entity ty : String)
    (h : ¬ (lookupA s.entities entity).isSome) (hty : ty ≠ "protein") :
    execCall fuel s (.entity entity ty)
      = (addNode (registerEntity s entity ty) (entity, "active"), none) := by
  rw [execCall_entity_eq, if_neg h, if_neg hty]

theorem execCall_entity_protein_succ (fuel : Nat) (s : PTab) (entity : String)
    (h : ¬ (lookupA s.entities entity).isSome) :
    execCall (fuel + 1) s (.entity entity "protein")
      = execCall fuel (addDogmaNodes (registerEntity s entity "protein") entity)
          (.steps entity
            (addDogmaNodes (registerEntity s entity "protein") entity).dogmaSteps) := by
  rw [execCall_entity_eq, if_neg h, if_pos rfl]

theorem execCall_entity_protein_zero (s : PTab) (entity : String)
    (h : ¬ (lookupA s.entities entity).isSome) :
    execCall 0 s (.entity entity "protein")
      = (addDogmaNodes (registerEntity s entity "protein") entity, some "fuel exhausted") := by
  rw [execCall_entity_eq, if_neg h, if_pos rfl]

theorem execCall_steps_nil (fuel : Nat) (s : PTab) (entity : String) :
    execCall fuel s (.steps entity []) = (s, none) := by
  cases fuel with
  | zero => rfl
  | succ n => rfl

theorem execCall_steps_zero (s : PTab) (entity st : String) (rest : List String) :
    execCall 0 s (.steps entity (st :: rest)) = (s, some "fuel exhausted") := rfl

theorem execCall_steps_succ (fuel : Nat) (s : PTab) (entity st : String) (rest : List String) :
    execCall (fuel + 1) s (.steps entity (st :: rest))
      = match execCall fuel s (.inter entity entity st) with
        | (s1, none) => execCall fuel s1 (.steps entity rest)
        | r => r := rfl

theorem execCall_inter_eq (fuel : Nat) (s : PTab) (a b sym : String) :
    execCall fuel s (.inter a b sym)
      = match lookupA s.imap sym with
        | none => (s, some "Unrecognized interaction type")
        | some i =>
          match fuel with
          | 0 => (s, some "fuel exhausted")
          | fuel + 1 =>
            match execCall fuel s (.entity a "protein") with
            | (s1, none) =>
              match execCall fuel s1 (.entity b "protein") with
              | (s2, none) => addResolvedInteraction s2 a b i
              | r => r
            | r => r := by
  cases fuel with
  | zero => simp only [execCall]
  | succ n => simp only [execCall]

theorem execCall_inter_none (fuel : Nat) (s : PTab) (a b sym : String)
    (h : lookupA s.imap sym = none) :
    execCall fuel s (.inter a b sym) = (s, some "Unrecognized interaction type") := by
  rw [execCall_inter_eq, h]

theorem execCall_inter_zero (s : PTab) (a b sym : String)
    (i : String × String × String) (h : lookupA s.imap sym = some i) :
    execCall 0 s (.inter a b sym) = (s, some "fuel exhausted") := by
  rw [execCall_inter_eq, h]

theorem execCall_inter_succ (fuel : Nat) (s : PTab) (a b sym : String)
    (i : String × String × String) (h : lookupA s.imap sym = some i) :
    execCall (fuel + 1) s (.inter a b sym)
      = match execCall fuel s (.entity a "protein") with
        | (s1, none) =>
          match execCall fuel s1 (.entity b "protein") with
          | (s2, none) => addResolvedInteraction s2 a b i
          | r => r
        | r => r := by
  rw [execCall_inter_eq, h]

/-- Embeds `PathwayTab::addEntity`. Modelled from the spec: the declaration of
`addEntity` (with the default value of its `type` parameter used by the bare
`addEntity(entity)` calls inside `addInteraction`) lives in `pathwaytab.h`,
which is not among the sources; consistent with the spec's resolution of
implicitly registered entities through the map entry's required species, the
default type is taken to be "protein". -/
def addEntity (s : PTab) (entity ty : String) : PTab × Option String :=
  execCall (s.dogmaSteps.length + 4) s (.entity entity ty)

/-- Embeds `PathwayTab::addInteraction`: look the symbol up in `_imap`
(throwing if absent), register both entities if needed, resolve both endpoint
nodes, silently drop a resolved self-loop, otherwise add both nodes and the
labeled edge. -/
def addInteraction (s : PTab) (entity_from entity_to interaction : String) :
    PTab × Option String :=
  execCall (s.dogmaSteps.length + 4) s (.inter entity_from entity_to interaction)

/-- Embeds `PathwayTab::addObservationNode`: create the observation node, then
resolve the hidden node for (entity, on_type) and wire the edge
hidden → observation labeled `OBSERVATION_INTERACTION`. Returns the new
observation node alongside the updated state. -/
def addObservationNode (s : PTab) (entity on_type obs_type : String) : PTab × Node :=
  let obs_node : Node := (entity, obs_type)
  let s1 := addNode s obs_node
  let p := getAppropriateEntityNode s1 entity on_type
  (addEdge p.1 p.2 obs_node OBSERVATION_INTERACTION, obs_node)

/-- Graph-construction operations offered by `PathwayTab` after parsing. -/
inductive Op where
  | entity (entity ty : String)
  | inter (entity_from entity_to interaction : String)
  | obs (entity on_type obs_type : String)

/-- True exactly for `addObservationNode` operations. -/
def Op.isObs : Op → Bool
  | .obs _ _ _ => true
  | _ => false

/-- Runs one operation, returning the new state and the error of a thrown
exception, if any. -/
def runOp (s : PTab) : Op → PTab × Option String
  | .entity e ty => addEntity s e ty
  | .inter a b sym => addInteraction s a b sym
  | .obs e onSp obsSp => ((addObservationNode s e onSp obsSp).1, none)

/-- Runs a sequence of operations; a thrown exception aborts the remaining
operations (the state mutated up to the throw is kept, matching a caught
exception observing the half-built object). -/
def run : PTab → List Op → PTab
  | s, [] => s
  | s, op :: rest =>
    match runOp s op with
    | (s1, none) => run s1 rest
    | (s1, some _) => s1

/-- A `PathwayTab` as just constructed, before any pathway line is processed:
empty node/entity/edge containers with the given interaction map and central
dogma. -/
def initPTab (imap : List (String × (String × String × String)))
    (dstates dsteps : List String) : PTab :=
  { nodemap := [], nodevector := [], parents := [], entities := [],
    imap := imap, dogmaStates := dstates, dogmaSteps := dsteps }

/-- A `PathwayTab` built over the built-in default interaction map and central
dogma. -/
def defaultPTab : PTab :=
  initPTab DEFAULT_INTERACTION_MAP CENTRAL_DOGMA_STATES CENTRAL_DOGMA_STEPS

theorem lookupA_nil {α β : Type} [DecidableEq α] (k : α) :
    lookupA ([] : List (α × β)) k = none := rfl

theorem lookupA_cons {α β : Type} [DecidableEq α] (e : α × β) (t : List (α × β)) (k : α) :
    lookupA (e :: t) k = if e.1 = k then some e.2 else lookupA t k := rfl

theorem setA_nil {α β : Type} [DecidableEq α] (k : α) (v : β) :
    setA ([] : List (α × β)) k v = [(k, v)] := rfl

theorem setA_cons {α β : Type} [DecidableEq α] (e : α × β) (t : List (α × β)) (k : α) (v : β) :
    setA (e :: t) k v = if e.1 = k then (k, v) :: t else e :: setA t k v := rfl

theorem lookupA_append_of_none {α β : Type} [DecidableEq α]
    (l1 l2 : List (α × β)) (k : α) (h : lookupA l1 k = none) :
    lookupA (l1 ++ l2) k = lookupA l2 k := by
  induction l1 with
  | nil => rfl
  | cons e t ih =>
    rw [lookupA_cons] at h
    by_cases hk : e.1 = k
    · rw [if_pos hk] at h
      cases h
    · rw [if_neg hk] at h
      rw [List.cons_append, lookupA_cons, if_neg hk]
      exact ih h

theorem lookupA_append_of_some {α β : Type} [DecidableEq α]
    (l1 l2 : List (α × β)) (k : α) (v : β) (h : lookupA l1 k = some v) :
    lookupA (l1 ++ l2) k = some v := by
  induction l1 with
  | nil => cases h
  | cons e t ih =>
    rw [lookupA_cons] at h
    rw [List.cons_append, lookupA_cons]
    by_cases hk : e.1 = k
    · rwa [if_pos hk] at h ⊢
    · rw [if_neg hk] at h ⊢
      exact ih h

theorem lookupA_setA_self {α β : Type} [DecidableEq α] (l : List (α × β)) (k : α) (v : β) :
    lookupA (setA l k v) k = some v := by
  induction l with
  | nil => simp [setA_nil, lookupA_cons]
  | cons e t ih =>
    rw [setA_cons]
    by_cases hk : e.1 = k
    · rw [if_pos hk, lookupA_cons, if_pos rfl]
    · rw [if_neg hk, lookupA_cons, if_neg hk]
      exact ih

theorem lookupA_setA_ne {α β : Type} [DecidableEq α] (l : List (α × β)) (k q : α) (v : β)
    (h : q ≠ k) : lookupA (setA l k v) q = lookupA l q := by
  have hkq : k ≠ q := fun hq => h hq.symm
  induction l with
  | nil => simp [setA_nil, lookupA_cons, lookupA_nil, hkq]
  | cons e t ih =>
    rw [setA_cons]
    by_cases hk : e.1 = k
    · rw [if_pos hk, lookupA_cons, lookupA_cons, hk]
      rw [if_neg hkq, if_neg hkq]
    · rw [if_neg hk, lookupA_cons, lookupA_cons, ih]

theorem lookupA_setA_isSome {α β : Type} [DecidableEq α] (l : List (α × β)) (k q : α) (v : β)
    (h : (lookupA l q).isSome) : (lookupA (setA l k v) q).isSome := by
  by_cases hq : q = k
  · subst hq
    simp [lookupA_setA_self]
  · rwa [lookupA_setA_ne l k q v hq]

theorem setA_of_none {α β : Type} [DecidableEq α] (l : List (α × β)) (k : α) (v : β)
    (h : lookupA l k = none) : setA l k v = l ++ [(k, v)] := by
  induction l with
  | nil => rfl
  | cons e t ih =>
    rw [lookupA_cons] at h
    by_cases hk : e.1 = k
    · rw [if_pos hk] at h
      cases h
    · rw [if_neg hk] at h
      rw [setA_cons, if_neg hk, List.cons_append, ih h]

theorem mem_setA {α β : Type} [DecidableEq α] (l : List (α × β)) (k : α) (v : β)
    (e : α × β) (h : e ∈ setA l k v) : e ∈ l ∨ e = (k, v) := by
  induction l with
  | nil => simpa [setA_nil] using h
  | cons x t ih =>
    rw [setA_cons] at h
    by_cases hk : x.1 = k
    · rw [if_pos hk] at h
      rcases List.mem_cons.mp h with h1 | h1
      · exact Or.inr h1
      · exact Or.inl (List.mem_cons_of_mem x h1)
    · rw [if_neg hk] at h
      rcases List.mem_cons.mp h with h1 | h1
      · exact Or.inl (h1 ▸ List.mem_cons_self x t)
      · rcases ih h1 with h2 | h2
        · exact Or.inl (List.mem_cons_of_mem x h2)
        · exact Or.inr h2

theorem map_fst_setA_of_isSome {α β : Type} [DecidableEq α] (l : List (α × β)) (k : α) (v : β)
    (h : (lookupA l k).isSome) : (setA l k v).map Prod.fst = l.map Prod.fst := by
  induction l with
  | nil => simp [lookupA_nil] at h
  | cons e t ih =>
    rw [setA_cons]
    by_cases hk : e.1 = k
    · rw [if_pos hk]
      simp [hk]
    · rw [lookupA_cons, if_neg hk] at h
      rw [if_neg hk, List.map_cons, List.map_cons, ih h]

theorem map_fst_setA_of_none {α β : Type} [DecidableEq α] (l : List (α × β)) (k : α) (v : β)
    (h : lookupA l k = none) : (setA l k v).map Prod.fst = l.map Prod.fst ++ [k] := by
  rw [setA_of_none l k v h]
  simp

theorem lookupA_isSome_iff_mem_fst {α β : Type} [DecidableEq α] (l : List (α × β)) (k : α) :
    (lookupA l k).isSome ↔ k ∈ l.map Prod.fst := by
  induction l with
  | nil => simp [lookupA_nil]
  | cons e t ih =>
    rw [lookupA_cons]
    by_cases hk : e.1 = k
    · simp [hk]
    · rw [if_neg hk]
      simp only [List.map_cons, List.mem_cons]
      rw [ih]
      constructor
      · exact Or.inr
      · rintro (h | h)
        · exact absurd h.symm hk
        · exact h

theorem lookupA_mem_of_nodup_fst {α β : Type} [DecidableEq α] (l : List (α × β))
    (hn : (l.map Prod.fst).Nodup) (e : α × β) (he : e ∈ l) :
    lookupA l e.1 = some e.2 := by
  induction l with
  | nil => cases he
  | cons x t ih =>
    rcases List.mem_cons.mp he with h1 | h1
    · subst h1
      rw [lookupA_cons, if_pos rfl]
    · have hx : x.1 ≠ e.1 := by
        intro hq
        exact (List.nodup_cons.mp hn).1 (hq ▸ List.mem_map_of_mem Prod.fst h1)
      rw [lookupA_cons, if_neg hx]
      exact ih (List.nodup_cons.mp hn).2 h1

/-- The `_nodemap` association list induced by a node vector, pairing the node
at position `j` with id `i + j`. -/
def nodemapOf {α : Type} : List α → Nat → List (α × Nat)
  | [], _ => []
  | n :: t, i => (n, i) :: nodemapOf t (i + 1)

theorem nodemapOf_length {α : Type} (l : List α) (i : Nat) :
    (nodemapOf l i).length = l.length := by
  induction l generalizing i with
  | nil => rfl
  | cons x t ih => simp [nodemapOf, ih]

theorem nodemapOf_append_single {α : Type} (l : List α) (n : α) (i : Nat) :
    nodemapOf (l ++ [n]) i = nodemapOf l i ++ [(n, i + l.length)] := by
  induction l generalizing i with
  | nil => simp [nodemapOf]
  | cons x t ih =>
    have harith : i + 1 + t.length = i + (t.length + 1) := by omega
    show (x, i) :: nodemapOf (t ++ [n]) (i + 1)
      = (x, i) :: (nodemapOf t (i + 1) ++ [(n, i + (t.length + 1))])
    rw [ih (i + 1), harith]

theorem map_fst_nodemapOf {α : Type} (l : List α) (i : Nat) :
    (nodemapOf l i).map Prod.fst = l := by
  induction l generalizing i with
  | nil => rfl
  | cons x t ih => simp [nodemapOf, ih]

theorem lookupA_nodemapOf_none_iff {α : Type} [DecidableEq α] (l : List α) (i : Nat) (n : α) :
    lookupA (nodemapOf l i) n = none ↔ n ∉ l := by
  induction l generalizing i with
  | nil => simp [nodemapOf, lookupA_nil]
  | cons x t ih =>
    show lookupA ((x, i) :: nodemapOf t (i + 1)) n = none ↔ n ∉ x :: t
    rw [lookupA_cons]
    by_cases hx : x = n
    · simp [hx]
    · rw [if_neg hx, ih (i + 1)]
      simp only [List.mem_cons, not_or]
      constructor
      · intro h1
        exact ⟨fun hq => hx hq.symm, h1⟩
      · intro h1
        exact h1.2

theorem mem_nodemapOf_fst {α : Type} (l : List α) (i : Nat) (n : α) (j : Nat)
    (h : (n, j) ∈ nodemapOf l i) : n ∈ l := by
  have := List.mem_map_of_mem Prod.fst h
  rwa [map_fst_nodemapOf] at this

theorem lookupA_nodemapOf_mem {α : Type} [DecidableEq α] (l : List α) (hn : l.Nodup)
    (i : Nat) (n : α) (j : Nat) (h : (n, j) ∈ nodemapOf l i) :
    lookupA (nodemapOf l i) n = some j := by
  induction l generalizing i with
  | nil => cases h
  | cons x t ih =>
    have h2 : (n, j) ∈ (x, i) :: nodemapOf t (i + 1) := h
    show lookupA ((x, i) :: nodemapOf t (i + 1)) n = some j
    rw [lookupA_cons]
    rcases List.mem_cons.mp h2 with h1 | h1
    · rw [Prod.mk.injEq] at h1
      rw [if_pos h1.1.symm, h1.2]
    · have hx : x ≠ n := by
        intro hq
        exact (List.nodup_cons.mp hn).1 (hq ▸ mem_nodemapOf_fst t (i + 1) n j h1)
      rw [if_neg hx]
      exact ih (List.nodup_cons.mp hn).2 (i + 1) h1

theorem nodemapOf_get_mem {α : Type} (l : List α) (i : Nat) :
    ∀ (j : Nat) (h : j < l.length), (l.get ⟨j, h⟩, i + j) ∈ nodemapOf l i := by
  induction l generalizing i with
  | nil => intro j h; exact absurd h (Nat.not_lt_zero j)
  | cons x t ih =>
    intro j h
    cases j with
    | zero => simp [nodemapOf, List.get]
    | succ j =>
      have hmem := ih (i + 1) j (Nat.lt_of_succ_lt_succ h)
      have harith : i + 1 + j = i + (j + 1) := by omega
      rw [harith] at hmem
      exact List.mem_cons_of_mem _ hmem

theorem nodemapOf_map_snd {α : Type} (l : List α) (i : Nat) :
    (nodemapOf l i).map Prod.snd = List.range' i l.length := by
  induction l generalizing i with
  | nil => rfl
  | cons x t ih => simp [nodemapOf, List.range', ih]

theorem lookupA_some_mem {α β : Type} [DecidableEq α] (l : List (α × β)) (k : α) (v : β)
    (h : lookupA l k = some v) : (k, v) ∈ l := by
  induction l with
  | nil => cases h
  | cons e t ih =>
    rw [lookupA_cons] at h
    by_cases hk : e.1 = k
    · rw [if_pos hk] at h
      have : e = (k, v) := by
        cases e
        cases h
        rw [Prod.mk.injEq]
        exact ⟨hk, rfl⟩
      exact this ▸ List.mem_cons_self e t
    · rw [if_neg hk] at h
      exact List.mem_cons_of_mem e (ih h)

/-- Structural invariant of a well-formed `PathwayTab` state: `_nodemap` pairs
the `j`-th inserted node with id `j`, `_nodevector` has no duplicates, and the
keys of `_parents` are exactly the nodes in insertion order. -/
def Inv (s : PTab) : Prop :=
  s.nodemap = nodemapOf s.nodevector 0
  ∧ s.nodevector.Nodup
  ∧ s.parents.map Prod.fst = s.nodevector

/-- No node is connected to itself by an edge. -/
def NoSelfLoop (s : PTab) : Prop :=
  ∀ e ∈ s.parents, ∀ p ∈ e.2, p.1 ≠ e.1

/-- State evolution facts shared by every graph-construction primitive: the
interaction map and central dogma are immutable, registered entities stay
registered, `_nodemap` only grows at the end, and the structural invariant is
preserved. -/
def StatePres (s s2 : PTab) : Prop :=
  s2.imap = s.imap
  ∧ s2.dogmaStates = s.dogmaStates
  ∧ s2.dogmaSteps = s.dogmaSteps
  ∧ (∀ q, (lookupA s.entities q).isSome → (lookupA s2.entities q).isSome)
  ∧ (∃ t, s2.nodemap = s.nodemap ++ t)
  ∧ (Inv s → Inv s2)

/-- `StatePres` together with preservation of self-loop freedom. -/
def StatePresN (s s2 : PTab) : Prop :=
  StatePres s s2 ∧ (NoSelfLoop s → NoSelfLoop s2)

theorem statePres_refl (s : PTab) : StatePres s s :=
  ⟨rfl, rfl, rfl, fun _ h => h, ⟨[], by simp⟩, id⟩

theorem statePres_trans {s1 s2 s3 : PTab} (h1 : StatePres s1 s2) (h2 : StatePres s2 s3) :
    StatePres s1 s3 := by
  obtain ⟨a1, b1, c1, d1, ⟨t1, e1⟩, f1⟩ := h1
  obtain ⟨a2, b2, c2, d2, ⟨t2, e2⟩, f2⟩ := h2
  refine ⟨a2.trans a1, b2.trans b1, c2.trans c1, fun q hq => d2 q (d1 q hq),
    ⟨t1 ++ t2, ?_⟩, fun h => f2 (f1 h)⟩
  rw [e2, e1, List.append_assoc]

theorem statePresN_refl (s : PTab) : StatePresN s s :=
  ⟨statePres_refl s, id⟩

theorem statePresN_trans {s1 s2 s3 : PTab} (h1 : StatePresN s1 s2) (h2 : StatePresN s2 s3) :
    StatePresN s1 s3 :=
  ⟨statePres_trans h1.1 h2.1, fun h => h2.2 (h1.2 h)⟩

theorem addNode_inv {s : PTab} (n : Node) (h : Inv s) : Inv (addNode s n) := by
  obtain ⟨h1, h2, h3⟩ := h
  unfold addNode
  by_cases hs : (lookupA s.nodemap n).isSome
  · rw [if_pos hs]
    exact ⟨h1, h2, h3⟩
  · rw [if_neg hs]
    have hnone : lookupA s.nodemap n = none := Option.not_isSome_iff_eq_none.mp hs
    have hnotmem : n ∉ s.nodevector := by
      rw [h1, lookupA_nodemapOf_none_iff] at hnone
      exact hnone
    have hplen : s.nodemap.length = s.nodevector.length := by
      rw [h1, nodemapOf_length]
    refine ⟨?_, ?_, ?_⟩
    · show s.nodemap ++ [(n, s.nodemap.length)] = nodemapOf (s.nodevector ++ [n]) 0
      rw [nodemapOf_append_single, ← h1, hplen]
      simp
    · show (s.nodevector ++ [n]).Nodup
      rw [List.nodup_append]
      refine ⟨h2, List.nodup_singleton n, ?_⟩
      intro a ha hb
      rw [List.mem_singleton] at hb
      exact hnotmem (hb ▸ ha)
    · show (setA s.parents n []).map Prod.fst = s.nodevector ++ [n]
      have hp : lookupA s.parents n = none := by
        rw [← Option.not_isSome_iff_eq_none]
        rw [lookupA_isSome_iff_mem_fst, h3]
        exact hnotmem
      rw [map_fst_setA_of_none _ _ _ hp, h3]

theorem addNode_nsl {s : PTab} (n : Node) (h : NoSelfLoop s) : NoSelfLoop (addNode s n) := by
  unfold addNode
  by_cases hs : (lookupA s.nodemap n).isSome
  · rw [if_pos hs]
    exact h
  · rw [if_neg hs]
    intro e he p hp
    rcases mem_setA _ _ _ _ he with h1 | h1
    · exact h e h1 p hp
    · rw [h1] at hp
      cases hp

theorem addNode_pres (s : PTab) (n : Node) : StatePresN s (addNode s n) := by
  refine ⟨⟨?_, ?_, ?_, ?_, ?_, addNode_inv n⟩, addNode_nsl n⟩ <;>
    unfold addNode <;> by_cases hs : (lookupA s.nodemap n).isSome
  · rw [if_pos hs]
  · rw [if_neg hs]
  · rw [if_pos hs]
  · rw [if_neg hs]
  · rw [if_pos hs]
  · rw [if_neg hs]
  · rw [if_pos hs]
    exact fun q h => h
  · rw [if_neg hs]
    exact fun q h => h
  · rw [if_pos hs]
    exact ⟨[], by simp⟩
  · rw [if_neg hs]
    exact ⟨[(n, s.nodemap.length)], rfl⟩

theorem addNode_parents_isSome {s : PTab} (n : Node) (h : Inv s) :
    (lookupA (addNode s n).parents n).isSome := by
  unfold addNode
  by_cases hs : (lookupA s.nodemap n).isSome
  · rw [if_pos hs]
    rw [lookupA_isSome_iff_mem_fst, h.2.2]
    have hsn : (lookupA (nodemapOf s.nodevector 0) n).isSome := by
      rw [← h.1]
      exact hs
    by_contra hmem
    rw [(lookupA_nodemapOf_none_iff s.nodevector 0 n).mpr hmem] at hsn
    cases hsn
  · rw [if_neg hs]
    show (lookupA (setA s.parents n []) n).isSome
    rw [lookupA_setA_self]
    rfl

theorem addEdge_inv {s : PTab} (node_from node_to : Node) (lbl : String)
    (hto : (lookupA s.parents node_to).isSome) (h : Inv s) :
    Inv (addEdge s node_from node_to lbl) := by
  obtain ⟨h1, h2, h3⟩ := h
  refine ⟨h1, h2, ?_⟩
  show (setA s.parents node_to _).map Prod.fst = s.nodevector
  rw [map_fst_setA_of_isSome _ _ _ hto, h3]

theorem addEdge_nsl {s : PTab} (node_from node_to : Node) (lbl : String)
    (hne : node_from ≠ node_to) (h : NoSelfLoop s) :
    NoSelfLoop (addEdge s node_from node_to lbl) := by
  intro e he p hp
  rcases mem_setA _ _ _ _ he with h1 | h1
  · exact h e h1 p hp
  · rw [h1] at hp ⊢
    rcases mem_setA _ _ _ _ hp with h2 | h2
    · cases hl : lookupA s.parents node_to with
      | none => rw [hl] at h2; cases h2
      | some pm =>
        rw [hl] at h2
        exact h (node_to, pm) (lookupA_some_mem _ _ _ hl) p h2
    · rw [h2]
      exact hne

theorem getAppropriate_pres (s : PTab) (entity species : String) :
    StatePresN s (getAppropriateEntityNode s entity species).1 := by
  unfold getAppropriateEntityNode
  cases h : lookupA s.entities entity with
  | some ty => exact statePresN_refl s
  | none =>
    refine ⟨⟨rfl, rfl, rfl, ?_, ⟨[], by simp⟩, fun hi => hi⟩, fun hn => hn⟩
    intro q hq
    exact lookupA_setA_isSome _ _ _ _ hq

theorem foldl_addNode_pres (entity : String) (l : List String) :
    ∀ s : PTab, StatePresN s (l.foldl (fun t st => addNode t (entity, st)) s) := by
  induction l with
  | nil => exact fun s => statePresN_refl s
  | cons st rest ih =>
    intro s
    exact statePresN_trans (addNode_pres s (entity, st)) (ih (addNode s (entity, st)))

theorem interTail_pres (s : PTab) (nf nt : Node) (lbl : String) (hne : nf ≠ nt) :
    StatePresN s (addEdge (addNode (addNode s nf) nt) nf nt lbl) := by
  have p1 := addNode_pres s nf
  have p2 := addNode_pres (addNode s nf) nt
  have p12 := statePresN_trans p1 p2
  set s6 := addNode (addNode s nf) nt with hs6
  refine ⟨⟨?_, ?_, ?_, ?_, ?_, ?_⟩, ?_⟩
  · exact p12.1.1
  · exact p12.1.2.1
  · exact p12.1.2.2.1
  · exact p12.1.2.2.2.1
  · exact p12.1.2.2.2.2.1
  · intro hinv
    have hinv6 : Inv s6 := p12.1.2.2.2.2.2 hinv
    have hinv5 : Inv (addNode s nf) := p1.1.2.2.2.2.2 hinv
    exact addEdge_inv nf nt lbl (addNode_parents_isSome nt hinv5) hinv6
  · intro hnsl
    exact addEdge_nsl nf nt lbl hne (p12.2 hnsl)

theorem registerEntity_pres (s : PTab) (entity ty : String) :
    StatePresN s (registerEntity s entity ty) := by
  refine ⟨⟨rfl, rfl, rfl, ?_, ⟨[], by simp [registerEntity]⟩, fun hi => hi⟩, fun hn => hn⟩
  intro q hq
  exact lookupA_setA_isSome _ _ _ _ hq

theorem getAppropriate_parents (s : PTab) (entity species : String) :
    (getAppropriateEntityNode s entity species).1.parents = s.parents := by
  unfold getAppropriateEntityNode
  cases lookupA s.entities entity <;> rfl

theorem addDogmaNodes_pres (s : PTab) (entity : String) :
    StatePresN s (addDogmaNodes s entity) :=
  foldl_addNode_pres entity s.dogmaStates s

theorem addResolvedInteraction_pres (s : PTab) (entity_from entity_to : String)
    (i : String × String × String) :
    StatePresN s (addResolvedInteraction s entity_from entity_to i).1 := by
  unfold addResolvedInteraction
  have g1 := getAppropriate_pres s entity_from i.1
  have g2 := getAppropriate_pres (getAppropriateEntityNode s entity_from i.1).1 entity_to i.2.1
  have g12 := statePresN_trans g1 g2
  by_cases hne : (getAppropriateEntityNode s entity_from i.1).2
      = (getAppropriateEntityNode (getAppropriateEntityNode s entity_from i.1).1 entity_to i.2.1).2
  · rw [if_pos hne]
    exact g12
  · rw [if_neg hne]
    exact statePresN_trans g12 (interTail_pres _ _ _ _ hne)

theorem addResolvedInteraction_ok (s : PTab) (entity_from entity_to : String)
    (i : String × String × String) :
    (addResolvedInteraction s entity_from entity_to i).2 = none := by
  unfold addResolvedInteraction
  by_cases hne : (getAppropriateEntityNode s entity_from i.1).2
      = (getAppropriateEntityNode (getAppropriateEntityNode s entity_from i.1).1
          entity_to i.2.1).2
  · rw [if_pos hne]
  · rw [if_neg hne]

theorem execCall_pres : ∀ (fuel : Nat) (c : GraphCall) (s : PTab),
    StatePresN s (execCall fuel s c).1 := by
  intro fuel
  induction fuel with
  | zero =>
    intro c s
    cases c with
    | entity entity ty =>
      by_cases hreg : (lookupA s.entities entity).isSome
      · rw [execCall_entity_reg 0 s entity ty hreg]
        exact statePresN_refl s
      · by_cases hty : ty = "protein"
        · subst hty
          rw [execCall_entity_protein_zero s entity hreg]
          exact statePresN_trans (registerEntity_pres s entity "protein")
            (addDogmaNodes_pres _ entity)
        · rw [execCall_entity_other 0 s entity ty hreg hty]
          exact statePresN_trans (registerEntity_pres s entity ty)
            (addNode_pres _ (entity, "active"))
    | steps entity sts =>
      cases sts with
      | nil =>
        rw [execCall_steps_nil]
        exact statePresN_refl s
      | cons st rest =>
        rw [execCall_steps_zero]
        exact statePresN_refl s
    | inter a b sym =>
      cases hsym : lookupA s.imap sym with
      | none =>
        rw [execCall_inter_none 0 s a b sym hsym]
        exact statePresN_refl s
      | some i =>
        rw [execCall_inter_zero s a b sym i hsym]
        exact statePresN_refl s
  | succ fuel ih =>
    intro c s
    cases c with
    | entity entity ty =>
      by_cases hreg : (lookupA s.entities entity).isSome
      · rw [execCall_entity_reg _ s entity ty hreg]
        exact statePresN_refl s
      · by_cases hty : ty = "protein"
        · subst hty
          rw [execCall_entity_protein_succ fuel s entity hreg]
          exact statePresN_trans
            (statePresN_trans (registerEntity_pres s entity "protein")
              (addDogmaNodes_pres _ entity))
            (ih _ _)
        · rw [execCall_entity_other _ s entity ty hreg hty]
          exact statePresN_trans (registerEntity_pres s entity ty)
            (addNode_pres _ (entity, "active"))
    | steps entity sts =>
      cases sts with
      | nil =>
        rw [execCall_steps_nil]
        exact statePresN_refl s
      | cons st rest =>
        rw [execCall_steps_succ]
        rcases h1 : execCall fuel s (.inter entity entity st) with ⟨s1, err⟩
        have p1 := ih (.inter entity entity st) s
        rw [h1] at p1
        cases err with
        | none => exact statePresN_trans p1 (ih (.steps entity rest) s1)
        | some e => exact p1
    | inter a b sym =>
      cases hsym : lookupA s.imap sym with
      | none =>
        rw [execCall_inter_none _ s a b sym hsym]
        exact statePresN_refl s
      | some i =>
        rw [execCall_inter_succ fuel s a b sym i hsym]
        rcases h1 : execCall fuel s (.entity a "protein") with ⟨s1, err1⟩
        have p1 := ih (.entity a "protein") s
        rw [h1] at p1
        cases err1 with
        | some e => exact p1
        | none =>
          show StatePresN s
            (match execCall fuel s1 (.entity b "protein") with
              | (s2, none) => addResolvedInteraction s2 a b i
              | r => r).1
          rcases h2 : execCall fuel s1 (.entity b "protein") with ⟨s2, err2⟩
          have p2 := ih (.entity b "protein") s1
          rw [h2] at p2
          cases err2 with
          | some e => exact statePresN_trans p1 p2
          | none =>
            exact statePresN_trans (statePresN_trans p1 p2)
              (addResolvedInteraction_pres s2 a b i)

theorem addObservationNode_pres (s : PTab) (entity on_type obs_type : String) :
    StatePres s (addObservationNode s entity on_type obs_type).1 := by
  unfold addObservationNode
  have p1 := addNode_pres s (entity, obs_type)
  have p2 := getAppropriate_pres (addNode s (entity, obs_type)) entity on_type
  have p12 := statePresN_trans p1 p2
  refine ⟨p12.1.1, p12.1.2.1, p12.1.2.2.1, p12.1.2.2.2.1, p12.1.2.2.2.2.1, ?_⟩
  intro hinv
  have hinv2 := p12.1.2.2.2.2.2 hinv
  refine addEdge_inv _ _ _ ?_ hinv2
  have hsome := addNode_parents_isSome (entity, obs_type) hinv
  rw [← getAppropriate_parents (addNode s (entity, obs_type)) entity on_type] at hsome
  exact hsome

theorem runOp_pres (s : PTab) (op : Op) : StatePres s (runOp s op).1 := by
  cases op with
  | entity e ty => exact (execCall_pres _ _ s).1
  | inter a b sym => exact (execCall_pres _ _ s).1
  | obs e onSp obsSp => exact addObservationNode_pres s e onSp obsSp

theorem run_pres : ∀ (ops : List Op) (s : PTab), StatePres s (run s ops) := by
  intro ops
  induction ops with
  | nil => exact fun s => statePres_refl s
  | cons op rest ih =>
    intro s
    show StatePres s (run s (op :: rest))
    unfold run
    rcases h : runOp s op with ⟨s1, err⟩
    have p1 := runOp_pres s op
    rw [h] at p1
    cases err with
    | none => exact statePres_trans p1 (ih s1)
    | some e => exact p1

theorem run_nsl : ∀ (ops : List Op) (s : PTab), (∀ op ∈ ops, op.isObs = false) →
    NoSelfLoop s → NoSelfLoop (run s ops) := by
  intro ops
  induction ops with
  | nil => exact fun s _ h => h
  | cons op rest ih =>
    intro s hops hs
    show NoSelfLoop (run s (op :: rest))
    unfold run
    have hop : op.isObs = false := hops op (List.mem_cons_self op rest)
    have hrest : ∀ op2 ∈ rest, op2.isObs = false :=
      fun op2 h2 => hops op2 (List.mem_cons_of_mem op h2)
    cases op with
    | entity e ty =>
      rcases h : runOp s (.entity e ty) with ⟨s1, err⟩
      have p1 := (execCall_pres (s.dogmaSteps.length + 4) (.entity e ty) s).2 hs
      have hrw : (execCall (s.dogmaSteps.length + 4) s (.entity e ty)).1 = s1 := by
        rw [show execCall (s.dogmaSteps.length + 4) s (.entity e ty) = runOp s (.entity e ty) from rfl, h]
      rw [hrw] at p1
      cases err with
      | none => exact ih s1 hrest p1
      | some e2 => exact p1
    | inter a b sym =>
      rcases h : runOp s (.inter a b sym) with ⟨s1, err⟩
      have p1 := (execCall_pres (s.dogmaSteps.length + 4) (.inter a b sym) s).2 hs
      have hrw : (execCall (s.dogmaSteps.length + 4) s (.inter a b sym)).1 = s1 := by
        rw [show execCall (s.dogmaSteps.length + 4) s (.inter a b sym) = runOp s (.inter a b sym) from rfl, h]
      rw [hrw] at p1
      cases err with
      | none => exact ih s1 hrest p1
      | some e2 => exact p1
    | obs e onSp obsSp => cases hop

theorem initPTab_inv (imap : List (String × (String × String × String)))
    (dstates dsteps : List String) : Inv (initPTab imap dstates dsteps) :=
  ⟨rfl, List.nodup_nil, rfl⟩

theorem initPTab_nsl (imap : List (String × (String × String × String)))
    (dstates dsteps : List String) : NoSelfLoop (initPTab imap dstates dsteps) := by
  intro e he
  cases he

/-- Embeds `PathwayTab::printNodeMap`: line `i` carries index `i` and the node
`_nodevector[i]`. -/
def printNodeMap (s : PTab) : List (Nat × Node) :=
  (nodemapOf s.nodevector 0).map (fun e => (e.2, e.1))

theorem addNode_of_isSome (s : PTab) (n : Node) (h : (lookupA s.nodemap n).isSome) :
    addNode s n = s := by
  unfold addNode
  rw [if_pos h]

/-- C4, counterexample. The claim asserts that after any sequence of
`addEntity` / `addInteraction` / `addObservationNode` operations no node is
connected to itself. `addObservationNode` performs no self-loop check: with an
unregistered entity "A" (resolved to ("A", "active")) and observation species
"active", the observation node coincides with the resolved hidden node and the
edge ("A","active") → ("A","active") is recorded. -/
theorem claim_C4_counterexample :
    ¬ NoSelfLoop (run defaultPTab [Op.obs "A" "x" "active"])
    ∧ (run defaultPTab [Op.obs "A" "x" "active"]).parents
        = [(("A", "active"), [(("A", "active"), OBSERVATION_INTERACTION)])] := by
  constructor
  · intro h
    exact h (("A", "active"), [(("A", "active"), OBSERVATION_INTERACTION)]) (by decide)
      (("A", "active"), OBSERVATION_INTERACTION) (by decide) rfl
  · decide

/-- C4, amended: after any sequence of `addEntity` and `addInteraction`
operations (the operations that expand interactions; `addObservationNode` is
excluded, since it can wire the observation node onto its own hidden node), no
node is connected to itself by an edge: `addInteraction` silently drops every
interaction whose resolved from-node equals its resolved to-node. -/
theorem claim_C4 (imap : List (String × (String × String × String)))
    (dstates dsteps : List String) (ops : List Op)
    (hops : ∀ op ∈ ops, op.isObs = false) :
    NoSelfLoop (run (initPTab imap dstates dsteps) ops) :=
  run_nsl ops (initPTab imap dstates dsteps) hops (initPTab_nsl imap dstates dsteps)

/-- C4 witness: a protein registration plus an interaction between two fresh
entities produce a self-loop-free graph. -/
theorem claim_C4_witness :
    (∀ op ∈ ([Op.entity "A" "protein", Op.inter "A" "B" "->"] : List Op), op.isObs = false)
    ∧ NoSelfLoop (run defaultPTab [Op.entity "A" "protein", Op.inter "A" "B" "->"]) :=
  ⟨by decide,
    claim_C4 DEFAULT_INTERACTION_MAP CENTRAL_DOGMA_STATES CENTRAL_DOGMA_STEPS
      [Op.entity "A" "protein", Op.inter "A" "B" "->"] (by decide)⟩

/-- C5: node ids are dense, zero-based and assigned in insertion order (the
`j`-th distinct node receives id `j`), they are never renumbered or reused by
later operations (`_nodemap` only ever grows at the end), and the node-index
output lists every node with its assigned id in id order. -/
theorem claim_C5 (imap : List (String × (String × String × String)))
    (dstates dsteps : List String) (ops : List Op) :
    let s := run (initPTab imap dstates dsteps) ops
    s.nodemap = nodemapOf s.nodevector 0
    ∧ s.nodevector.Nodup
    ∧ (∀ (j : Nat) (hj : j < s.nodevector.length),
        lookupA s.nodemap (s.nodevector.get ⟨j, hj⟩) = some j)
    ∧ (∀ more : List Op, ∃ t, (run s more).nodemap = s.nodemap ++ t)
    ∧ (printNodeMap s).map Prod.fst = List.range s.nodevector.length
    ∧ ∀ p ∈ printNodeMap s, lookupA s.nodemap p.2 = some p.1 := by
  intro s
  have hinv : Inv s := (run_pres ops _).2.2.2.2.2 (initPTab_inv imap dstates dsteps)
  obtain ⟨h1, h2, h3⟩ := hinv
  refine ⟨h1, h2, ?_, ?_, ?_, ?_⟩
  · intro j hj
    rw [h1]
    have hm := nodemapOf_get_mem s.nodevector 0 j hj
    rw [Nat.zero_add] at hm
    exact lookupA_nodemapOf_mem s.nodevector h2 0 _ j hm
  · intro more
    exact (run_pres more s).2.2.2.2.1
  · unfold printNodeMap
    rw [List.map_map]
    have hcomp : (Prod.fst ∘ fun e : Node × Nat => (e.2, e.1)) = Prod.snd := rfl
    rw [hcomp, nodemapOf_map_snd, List.range_eq_range']
  · intro p hp
    unfold printNodeMap at hp
    rcases List.mem_map.mp hp with ⟨e, he, hep⟩
    rw [h1, ← hep]
    have he2 : (e.1, e.2) ∈ nodemapOf s.nodevector 0 := by
      rw [Prod.mk.eta]
      exact he
    exact lookupA_nodemapOf_mem s.nodevector h2 0 e.1 e.2 he2

/-- C8, counterexample. The claim asserts that the fixed default built-in
interaction map contains an entry for the reserved observation
pseudo-interaction symbol; `DEFAULT_INTERACTION_MAP` has 13 entries and none of
them is keyed by `OBSERVATION_INTERACTION` ("-obs>"). -/
theorem claim_C8_counterexample :
    lookupA DEFAULT_INTERACTION_MAP OBSERVATION_INTERACTION = none := by decide

/-- C8, amended: the fixed default built-in interaction map contains the
cascade transcription / translation / activation interactions and the generic
positive / negative regulation entries, but no entry for the reserved
observation pseudo-interaction symbol "-obs>"; that symbol is a separate
constant, used directly by `addObservationNode` without a map lookup. -/
theorem claim_C8 :
    lookupA DEFAULT_INTERACTION_MAP "-dt>" = some ("genome", "mRNA", "positive")
    ∧ lookupA DEFAULT_INTERACTION_MAP "-dr>" = some ("mRNA", "protein", "positive")
    ∧ lookupA DEFAULT_INTERACTION_MAP "-dp>" = some ("protein", "active", "positive")
    ∧ lookupA DEFAULT_INTERACTION_MAP "-a>" = some ("active", "active", "positive")
    ∧ lookupA DEFAULT_INTERACTION_MAP "-a|" = some ("active", "active", "negative")
    ∧ lookupA DEFAULT_INTERACTION_MAP "->" = some ("active", "active", "positive")
    ∧ lookupA DEFAULT_INTERACTION_MAP "-|" = some ("active", "active", "negative")
    ∧ OBSERVATION_INTERACTION = "-obs>"
    ∧ lookupA DEFAULT_INTERACTION_MAP OBSERVATION_INTERACTION = none := by
  refine ⟨?_, ?_, ?_, ?_, ?_, ?_, ?_, ?_, ?_⟩ <;> decide

/-- C9: adding the same (entity, species) node twice never creates a second
node or changes its id (the second `addNode` is the identity, so the whole
state, id included, is untouched), and re-registering an already-registered
entity identifier with `addEntity` is a no-op returning the state unchanged. -/
theorem claim_C9 (s : PTab) (n : Node) (entity ty ty2 : String)
    (hreg : lookupA s.entities entity = some ty2) :
    addNode (addNode s n) n = addNode s n
    ∧ lookupA (addNode (addNode s n) n).nodemap n = lookupA (addNode s n).nodemap n
    ∧ addEntity s entity ty = (s, none) := by
  have hidem : addNode (addNode s n) n = addNode s n := by
    by_cases h : (lookupA s.nodemap n).isSome
    · rw [addNode_of_isSome s n h]
      exact addNode_of_isSome s n h
    · have hnew : (lookupA (addNode s n).nodemap n).isSome := by
        unfold addNode
        rw [if_neg h]
        show (lookupA (s.nodemap ++ [(n, s.nodemap.length)]) n).isSome
        rw [lookupA_append_of_none _ _ _ (Option.not_isSome_iff_eq_none.mp h),
          lookupA_cons, if_pos rfl]
        rfl
      exact addNode_of_isSome (addNode s n) n hnew
  refine ⟨hidem, by rw [hidem], ?_⟩
  exact execCall_entity_reg _ s entity ty (by rw [hreg]; rfl)

/-- C9 witness: instantiated on a graph holding one registered non-protein
entity "A" and a fresh node ("B", "active"). -/
theorem claim_C9_witness :
    lookupA (run defaultPTab [Op.entity "A" "gene"]).entities "A" = some "gene"
    ∧ (addNode (addNode (run defaultPTab [Op.entity "A" "gene"]) ("B", "active")) ("B", "active")
        = addNode (run defaultPTab [Op.entity "A" "gene"]) ("B", "active")
      ∧ lookupA (addNode (addNode (run defaultPTab [Op.entity "A" "gene"]) ("B", "active"))
            ("B", "active")).nodemap ("B", "active")
          = lookupA (addNode (run defaultPTab [Op.entity "A" "gene"]) ("B", "active")).nodemap
            ("B", "active")
      ∧ addEntity (run defaultPTab [Op.entity "A" "gene"]) "A" "protein"
          = (run defaultPTab [Op.entity "A" "gene"], none)) :=
  ⟨by decide, claim_C9 (run defaultPTab [Op.entity "A" "gene"]) ("B", "active")
    "A" "protein" "gene" (by decide)⟩

/-- C10: for every entity whose registered type is not "protein" — including
entities not registered at call time, whose `_entities[entity]` read
default-inserts the empty type string — `getAppropriateEntityNode` resolves to
the node (entity, "active") regardless of the requested species, so
`addObservationNode` attaches the observation edge to (entity, "active") even
when `on_type` names a different species. -/
theorem claim_C10 (s : PTab) (entity on_type obs_type species : String)
    (h : ∀ ty, lookupA s.entities entity = some ty → ty ≠ "protein") :
    (getAppropriateEntityNode s entity species).2 = (entity, "active")
    ∧ ∃ pm, lookupA (addObservationNode s entity on_type obs_type).1.parents
          (entity, obs_type) = some pm
        ∧ lookupA pm (entity, "active") = some OBSERVATION_INTERACTION := by
  have hent1 : (addNode s (entity, obs_type)).entities = s.entities := by
    unfold addNode
    split <;> rfl
  have hp2 : (getAppropriateEntityNode (addNode s (entity, obs_type)) entity on_type).2
      = (entity, "active") := by
    unfold getAppropriateEntityNode
    rw [hent1]
    cases hx : lookupA s.entities entity with
    | none => rfl
    | some ty =>
      dsimp only
      rw [if_neg (h ty hx)]
  constructor
  · unfold getAppropriateEntityNode
    cases hx : lookupA s.entities entity with
    | none => rfl
    | some ty =>
      dsimp only
      rw [if_neg (h ty hx)]
  · unfold addObservationNode addEdge
    refine ⟨_, lookupA_setA_self _ _ _, ?_⟩
    rw [hp2]
    exact lookupA_setA_self _ _ _

/-- C10 witness: unregistered entity "A", observation requested on species
"genome"; the edge nevertheless hangs off ("A", "active"). -/
theorem claim_C10_witness :
    (∀ ty, lookupA defaultPTab.entities "A" = some ty → ty ≠ "protein")
    ∧ ((getAppropriateEntityNode defaultPTab "A" "genome").2 = ("A", "active")
      ∧ ∃ pm, lookupA (addObservationNode defaultPTab "A" "genome" "obs").1.parents
            ("A", "obs") = some pm
          ∧ lookupA pm ("A", "active") = some OBSERVATION_INTERACTION) := by
  refine ⟨?_, claim_C10 defaultPTab "A" "genome" "obs" "genome" ?_⟩
  · intro ty hty
    have hne : (none : Option String) = some ty := hty
    cases hne
  · intro ty hty
    have hne : (none : Option String) = some ty := hty
    cases hne

theorem execCall_inter_registered_ok (fuel : Nat) (s : PTab) (a b sym : String)
    (i : String × String × String) (hsym : lookupA s.imap sym = some i)
    (ha : (lookupA s.entities a).isSome) (hb : (lookupA s.entities b).isSome) :
    (execCall (fuel + 1) s (.inter a b sym)).2 = none := by
  rw [execCall_inter_succ fuel s a b sym i hsym,
    execCall_entity_reg fuel s a "protein" ha]
  show (match execCall fuel s (.entity b "protein") with
        | (s2, none) => addResolvedInteraction s2 a b i
        | r => r).2 = none
  rw [execCall_entity_reg fuel s b "protein" hb]
  exact addResolvedInteraction_ok s a b i

theorem execCall_steps_ok : ∀ (rest : List String) (fuel : Nat) (s : PTab) (entity : String),
    rest.length < fuel →
    (∀ st ∈ rest, (lookupA s.imap st).isSome) →
    (lookupA s.entities entity).isSome →
    (execCall fuel s (.steps entity rest)).2 = none := by
  intro rest
  induction rest with
  | nil =>
    intro fuel s entity _ _ _
    rw [execCall_steps_nil]
  | cons st tail ih =>
    intro fuel s entity hfuel hsteps hent
    cases fuel with
    | zero => exact absurd hfuel (Nat.not_lt_zero _)
    | succ f =>
      rw [execCall_steps_succ]
      obtain ⟨i, hi⟩ := Option.isSome_iff_exists.mp (hsteps st (List.mem_cons_self st tail))
      have hf1 : 0 < f := by
        simp only [List.length_cons] at hfuel
        omega
      obtain ⟨f2, rfl⟩ : ∃ f2, f = f2 + 1 := ⟨f - 1, by omega⟩
      have hok := execCall_inter_registered_ok f2 s entity entity st i hi hent hent
      rcases hrun : execCall (f2 + 1) s (.inter entity entity st) with ⟨s1, err⟩
      rw [hrun] at hok
      cases err with
      | some e => cases hok
      | none =>
        have hpres := execCall_pres (f2 + 1) (.inter entity entity st) s
        rw [hrun] at hpres
        refine ih (f2 + 1) s1 entity ?_ ?_ ?_
        · simp only [List.length_cons] at hfuel
          omega
        · intro st2 hst2
          have hm := hsteps st2 (List.mem_cons_of_mem st hst2)
          rw [hpres.1.1]
          exact hm
        · exact hpres.1.2.2.2.1 entity hent

theorem execCall_entity_ok (fuel : Nat) (s : PTab) (entity ty : String)
    (hfuel : s.dogmaSteps.length + 1 < fuel)
    (hsteps : ∀ st ∈ s.dogmaSteps, (lookupA s.imap st).isSome) :
    (execCall fuel s (.entity entity ty)).2 = none := by
  by_cases hreg : (lookupA s.entities entity).isSome
  · rw [execCall_entity_reg fuel s entity ty hreg]
  · by_cases hty : ty = "protein"
    · subst hty
      obtain ⟨f, rfl⟩ : ∃ f, fuel = f + 1 := ⟨fuel - 1, by omega⟩
      rw [execCall_entity_protein_succ f s entity hreg]
      have hpres1 := statePresN_trans (registerEntity_pres s entity "protein")
        (addDogmaNodes_pres (registerEntity s entity "protein") entity)
      refine execCall_steps_ok _ f _ entity ?_ ?_ ?_
      · rw [hpres1.1.2.2.1]
        omega
      · intro st hst
        rw [hpres1.1.1]
        apply hsteps
        rw [← hpres1.1.2.2.1]
        exact hst
      · have h1 : (lookupA (registerEntity s entity "protein").entities entity).isSome := by
          show (lookupA (setA s.entities entity "protein") entity).isSome
          rw [lookupA_setA_self]
          rfl
        exact (addDogmaNodes_pres (registerEntity s entity "protein") entity).1.2.2.2.1 entity h1
    · rw [execCall_entity_other fuel s entity ty hreg hty]

/-- C7, amended: provided every central-dogma step symbol is present in the
interaction map (as is the case for the built-in defaults), `addInteraction`
raises the unknown-interaction error if and only if the symbol is absent from
the interaction map, and on that failure the graph state is returned
unchanged. Without that proviso the claim fails: a symbol present in the map
can still raise the error through the dogma expansion of a newly registered
entity (see the counterexample). -/
theorem claim_C7 (s : PTab) (entity_from entity_to interaction : String)
    (hdogma : ∀ st ∈ s.dogmaSteps, (lookupA s.imap st).isSome) :
    ((addInteraction s entity_from entity_to interaction).2.isSome
        ↔ lookupA s.imap interaction = none)
    ∧ (lookupA s.imap interaction = none →
        addInteraction s entity_from entity_to interaction
          = (s, some "Unrecognized interaction type")) := by
  cases hsym : lookupA s.imap interaction with
  | none =>
    have heq : addInteraction s entity_from entity_to interaction
        = (s, some "Unrecognized interaction type") :=
      execCall_inter_none (s.dogmaSteps.length + 4) s entity_from entity_to interaction hsym
    refine ⟨?_, fun _ => heq⟩
    rw [heq]
    simp
  | some i =>
    have hok : (addInteraction s entity_from entity_to interaction).2 = none := by
      show (execCall (s.dogmaSteps.length + 3 + 1) s
        (.inter entity_from entity_to interaction)).2 = none
      rw [execCall_inter_succ (s.dogmaSteps.length + 3) s entity_from entity_to interaction i hsym]
      rcases h1 : execCall (s.dogmaSteps.length + 3) s (.entity entity_from "protein")
        with ⟨s1, err1⟩
      have he1 : err1 = none := by
        have h := execCall_entity_ok (s.dogmaSteps.length + 3) s entity_from "protein"
          (by omega) hdogma
        rw [h1] at h
        exact h
      subst he1
      show (match execCall (s.dogmaSteps.length + 3) s1 (.entity entity_to "protein") with
            | (s2, none) => addResolvedInteraction s2 entity_from entity_to i
            | r => r).2 = none
      have hpres1 := execCall_pres (s.dogmaSteps.length + 3) (.entity entity_from "protein") s
      rw [h1] at hpres1
      rcases h2 : execCall (s.dogmaSteps.length + 3) s1 (.entity entity_to "protein")
        with ⟨s2, err2⟩
      have he2 : err2 = none := by
        have hd1 : ∀ st ∈ s1.dogmaSteps, (lookupA s1.imap st).isSome := by
          intro st hst
          rw [hpres1.1.1]
          apply hdogma
          rw [← hpres1.1.2.2.1]
          exact hst
        have h := execCall_entity_ok (s.dogmaSteps.length + 3) s1 entity_to "protein"
          (by rw [hpres1.1.2.2.1]; omega) hd1
        rw [h2] at h
        exact h
      subst he2
      exact addResolvedInteraction_ok s2 entity_from entity_to i
    refine ⟨⟨fun habs => ?_, fun habs => ?_⟩, fun habs => ?_⟩
    · rw [hok] at habs
      cases habs
    · cases habs
    · cases habs

/-- C7, counterexample. With an interaction map holding only "->" and a
central dogma whose step "-dt>" is missing from that map, the call
`addInteraction "A" "B" "->"` raises the unknown-interaction error even though
"->" is present in the map, and the half-built state (entity "A" already
registered) differs from the initial one. -/
theorem claim_C7_counterexample :
    lookupA (initPTab [("->", ("active", "active", "positive"))] ["genome"] ["-dt>"]).imap "->"
      = some ("active", "active", "positive")
    ∧ (addInteraction (initPTab [("->", ("active", "active", "positive"))] ["genome"] ["-dt>"])
        "A" "B" "->").2 = some "Unrecognized interaction type"
    ∧ (addInteraction (initPTab [("->", ("active", "active", "positive"))] ["genome"] ["-dt>"])
        "A" "B" "->").1
      ≠ initPTab [("->", ("active", "active", "positive"))] ["genome"] ["-dt>"] := by
  refine ⟨?_, ?_, ?_⟩ <;> decide

/-- C7 witness: the default map and dogma satisfy the proviso, and the theorem
applies to an `addInteraction` call on it. -/
theorem claim_C7_witness :
    (∀ st ∈ defaultPTab.dogmaSteps, (lookupA defaultPTab.imap st).isSome)
    ∧ (((addInteraction defaultPTab "A" "B" "-a>").2.isSome
        ↔ lookupA defaultPTab.imap "-a>" = none)
      ∧ (lookupA defaultPTab.imap "-a>" = none →
          addInteraction defaultPTab "A" "B" "-a>"
            = (defaultPTab, some "Unrecognized interaction type"))) :=
  ⟨by decide, claim_C7 defaultPTab "A" "B" "-a>" (by decide)⟩

/-- The ordered list of incoming-edge labels of a node: the values of its
`_parents` map (empty when the node has no entry). -/
def edgeLabels (s : PTab) (n : Node) : List String :=
  ((lookupA s.parents n).getD []).map Prod.snd

/-- Embeds the sharing-group matching test of `PathwayTab::constructFactors`:
`spec_subtype == node_subtype && edge_types.size() == eset.size() &&
jit->second == eset`, where `eset` is the `SmallSet` (here: `Finset`) built
from the edge-label list. -/
def SharingMatch (spec_subtype : String) (spec_set : Finset String) (child : Node)
    (edge_types : List String) : Prop :=
  spec_subtype = child.2
  ∧ edge_types.length = edge_types.toFinset.card
  ∧ spec_set = edge_types.toFinset

instance (a : String) (f : Finset String) (c : Node) (l : List String) :
    Decidable (SharingMatch a f c l) := by
  unfold SharingMatch
  infer_instance

/-- Embeds the parameter-sharing group accumulated by
`PathwayTab::constructFactors` for one requested key: the loop walks
`_parents`, skips children with no incoming edge, and records one entry per
factor whose child and edge-label list satisfy `SharingMatch`. The group is
represented by the list of matching factor children (one factor per child, so
its length is the group's factor count). -/
def sharingGroup (s : PTab) (spec_subtype : String) (spec_set : Finset String) : List Node :=
  (s.parents.filter (fun e => !e.2.isEmpty
      && decide (SharingMatch spec_subtype spec_set e.1 (e.2.map Prod.snd)))).map Prod.fst

theorem isEmpty_map {α β : Type} (f : α → β) (l : List α) :
    (l.map f).isEmpty = l.isEmpty := by
  cases l <;> rfl

theorem filter_map_fst_length {α β : Type} (l : List (α × β)) (p : α × β → Bool)
    (q : α → Bool) (hpq : ∀ e ∈ l, p e = q e.1) :
    ((l.filter p).map Prod.fst).length = ((l.map Prod.fst).filter q).length := by
  induction l with
  | nil => rfl
  | cons e t ih =>
    have he := hpq e (List.mem_cons_self e t)
    have ht := ih (fun e2 h2 => hpq e2 (List.mem_cons_of_mem e h2))
    simp only [List.filter_cons, List.map_cons, he]
    cases hq : q e.1 <;> simp [hq, ht]

/-- C6, amended: during factor construction over a reachable graph, a factor
is placed in a requested parameter-sharing group if and only if its child node
has at least one incoming edge, the child's species equals the key's species,
the edge-label list has no duplicates, and the label set equals the key's set;
consequently the group's factor count equals the number of nodes **with at
least one incoming edge** satisfying those conditions (nodes with no incoming
edges are skipped before matching, which is what the counterexample exploits). -/
theorem claim_C6 (imap : List (String × (String × String × String)))
    (dstates dsteps : List String) (ops : List Op)
    (spec_subtype : String) (spec_set : Finset String) :
    let s := run (initPTab imap dstates dsteps) ops
    (∀ c : Node, c ∈ sharingGroup s spec_subtype spec_set
        ↔ (c ∈ s.nodevector ∧ edgeLabels s c ≠ []
          ∧ SharingMatch spec_subtype spec_set c (edgeLabels s c)))
    ∧ (sharingGroup s spec_subtype spec_set).length
        = (s.nodevector.filter (fun n => !(edgeLabels s n).isEmpty
            && decide (SharingMatch spec_subtype spec_set n (edgeLabels s n)))).length := by
  intro s
  have hinv : Inv s := (run_pres ops _).2.2.2.2.2 (initPTab_inv imap dstates dsteps)
  obtain ⟨h1, h2, h3⟩ := hinv
  have hkeys : (s.parents.map Prod.fst).Nodup := by
    rw [h3]
    exact h2
  have hlook : ∀ e ∈ s.parents, edgeLabels s e.1 = e.2.map Prod.snd := by
    intro e he
    unfold edgeLabels
    rw [lookupA_mem_of_nodup_fst s.parents hkeys e he]
    rfl
  constructor
  · intro c
    unfold sharingGroup
    constructor
    · intro hc
      rcases List.mem_map.mp hc with ⟨e, hef, hfst⟩
      rcases List.mem_filter.mp hef with ⟨hmem, hcond⟩
      rw [Bool.and_eq_true] at hcond
      obtain ⟨hne, hmatch⟩ := hcond
      have hel : edgeLabels s c = e.2.map Prod.snd := by
        rw [← hfst]
        exact hlook e hmem
      refine ⟨?_, ?_, ?_⟩
      · rw [← h3, ← hfst]
        exact List.mem_map_of_mem Prod.fst hmem
      · rw [hel]
        intro habs
        rw [List.map_eq_nil_iff] at habs
        rw [habs] at hne
        simp at hne
      · have := of_decide_eq_true hmatch
        rw [hel, ← hfst]
        exact this
    · rintro ⟨hcv, hcne, hcmatch⟩
      rw [← h3] at hcv
      rcases List.mem_map.mp hcv with ⟨e, hmem, hfst⟩
      have hel : edgeLabels s c = e.2.map Prod.snd := by
        rw [← hfst]
        exact hlook e hmem
      have hne2 : (!e.2.isEmpty) = true := by
        rw [hel] at hcne
        cases he2 : e.2 with
        | nil =>
          rw [he2] at hcne
          simp at hcne
        | cons x t => rfl
      refine List.mem_map.mpr ⟨e, List.mem_filter.mpr ⟨hmem, ?_⟩, hfst⟩
      rw [Bool.and_eq_true]
      refine ⟨hne2, ?_⟩
      apply decide_eq_true
      rw [hfst, ← hel]
      exact hcmatch
  · unfold sharingGroup
    have hstep := filter_map_fst_length s.parents
      (fun e => !e.2.isEmpty
        && decide (SharingMatch spec_subtype spec_set e.1 (e.2.map Prod.snd)))
      (fun n => !(edgeLabels s n).isEmpty
        && decide (SharingMatch spec_subtype spec_set n (edgeLabels s n)))
      (by
        intro e he
        dsimp only
        rw [hlook e he, isEmpty_map])
    rw [hstep, h3]

/-- C6, counterexample. The claim equates the group's factor count with the
number of nodes whose species and exact incoming-edge-label set match the key,
with no restriction to nodes owning at least one edge. A registered
non-protein entity yields the node ("A", "active") with an empty parent map;
for the key ("active", ∅) that node's species and (empty) edge-label set match
the key, so the claimed count is 1, yet the group stays empty because
factor construction skips children without incoming edges. -/
theorem claim_C6_counterexample :
    sharingGroup (run defaultPTab [Op.entity "A" "gene"]) "active" ∅ = []
    ∧ ((run defaultPTab [Op.entity "A" "gene"]).nodevector.filter
        (fun n => decide (SharingMatch "active" ∅ n
          (edgeLabels (run defaultPTab [Op.entity "A" "gene"]) n)))).length = 1 := by
  constructor
  · decide
  · decide

end PW
